import Mathlib

/-!
Shallow embedding of the BridgeTroll traffic-reconciliation core
(`StarlinkRouter.py`, `star_bridgetroll.py`, `lte_bridgetroll.py`).

Numeric conventions: Python floats are modelled as exact rationals (ℚ);
integer counter values are ℕ.  Python exceptions are modelled by
Option-valued functions (`none` = the call raises).  Python dicts whose
iteration order matters are modelled as association lists in insertion
order.  Python string comparison (code-point lexicographic) is modelled
by Lean's lexicographic order on `String`.
-/

namespace BridgeTroll

/-- One usage bin of the Starlink billing payload: `{ totalGB: float }`. -/
structure DataUsageBin where
  totalGB : ℚ
deriving DecidableEq

/-- One day of the Starlink billing payload: `{ dataUsageBins: [...] }`. -/
structure DailyDataUsage where
  dataUsageBins : List DataUsageBin
deriving DecidableEq

/-- One billing cycle of the Starlink payload:
`{ startDate, endDate, dailyDataUsages }` (dates are ISO8601 strings). -/
structure BillingCycle where
  startDate : String
  endDate : String
  dailyDataUsages : List DailyDataUsage
deriving DecidableEq

/-- The Starlink billing payload handed to `StarlinkRouter`:
`{ billingCycles: [...] }`. -/
structure StarTraffic where
  billingCycles : List BillingCycle
deriving DecidableEq

/-- Lexicographic code-point comparison of character lists: Python's `<`
on strings. -/
def strLtAux : List Char → List Char → Bool
  | [], [] => false
  | [], _ :: _ => true
  | _ :: _, [] => false
  | a :: as, b :: bs =>
    if a.toNat < b.toNat then true
    else if b.toNat < a.toNat then false
    else strLtAux as bs

/-- Python's `<` on strings (lexicographic by code point). -/
def pyStrLt (a b : String) : Bool :=
  strLtAux a.data b.data

/-- Python `min(cycles, key=lambda x: x['startDate'])`: first element with
minimal `startDate` (a later element replaces the current minimum only when
strictly smaller); `none` on an empty list (Python raises `ValueError`). -/
def minByStart (cs : List BillingCycle) : Option BillingCycle :=
  cs.foldl
    (fun acc c =>
      match acc with
      | none => some c
      | some b => if pyStrLt c.startDate b.startDate then some c else some b)
    none

/-- `StarlinkRouter.set_dates`: pick the earliest-starting cycle and truncate
both of its timestamps to the first 10 characters (the date part).
`none` models the `ValueError` raised by `min` on an empty cycle list. -/
def setDates (t : StarTraffic) : Option (String × String) :=
  (minByStart t.billingCycles).map fun cycle =>
    (cycle.startDate.take 10, cycle.endDate.take 10)

/-- `StarlinkRouter.calc_star_total`: over the earliest-starting cycle, fold
every bin of every day, accumulating `star_total += bin['totalGB']` and
`leeway += 0.01` from the initial `(0, 1)`.  `none` models the `ValueError`
of `min` on an empty cycle list. -/
def calcStarTotal (t : StarTraffic) : Option (ℚ × ℚ) :=
  (minByStart t.billingCycles).map fun cycle =>
    cycle.dailyDataUsages.foldl
      (fun acc day =>
        day.dataUsageBins.foldl
          (fun acc2 b => (acc2.1 + b.totalGB, acc2.2 + 1 / 100)) acc)
      (0, 1)

/-- Numeric value of an ASCII digit string, most significant digit first
(how Python parses the digits captured by a regex group). -/
def digitsToNat (ds : List Char) : Nat :=
  ds.foldl (fun a c => a * 10 + (c.toNat - 48)) 0

/-- True when a character list does not begin with an ASCII digit (used to
state that a matched digit run is maximal). -/
def headNotDigit (l : List Char) : Bool :=
  match l.head? with
  | none => true
  | some c => !c.isDigit

/-- One attempted regex match of the literal pattern `pat` followed by
a greedy nonempty digit run, anchored at the start of `s`: succeeds iff
`pat` is a prefix of `s` and at least one digit follows, returning the
value of the maximal digit run. -/
def tryAt (pat s : List Char) : Option Nat :=
  if pat.isPrefixOf s then
    let ds := (s.drop pat.length).takeWhile Char.isDigit
    if ds.isEmpty then none else some (digitsToNat ds)
  else none

/-- Leftmost match of the literal pattern `pat` followed by a greedy
nonempty digit run, as `re.search` finds it: try every start position
left to right. -/
def findCounter (pat : List Char) : List Char → Option Nat
  | [] => tryAt pat []
  | c :: s =>
    match tryAt pat (c :: s) with
    | some n => some n
    | none => findCounter pat s

/-- The literal text of the inbound-counter regex
`,{iface},IF-MIB\.ifHCInOctets,=,` (before the digit group); the
interpolated interface name is treated as literal text, i.e. assumed free
of regex metacharacters. -/
def inOctetsPat (iface : String) : List Char :=
  (",".data ++ iface.data) ++ ",IF-MIB.ifHCInOctets,=,".data

/-- The literal text of the outbound-counter regex
`,{iface},IF-MIB\.ifHCOutOctets,=,` (before the digit group). -/
def outOctetsPat (iface : String) : List Char :=
  (",".data ++ iface.data) ++ ",IF-MIB.ifHCOutOctets,=,".data

/-- `StarlinkRouter.calc_ares_total`: starting from 0, add the first
inbound-counter match times `0.000000001` (exact `1/10^9` in the ℚ model)
if present, then likewise the first outbound-counter match. -/
def calcAresTotal (iface blob : String) : ℚ :=
  (match findCounter (inOctetsPat iface) blob.data with
   | none => 0
   | some n => (n : ℚ) * (1 / 1000000000)) +
  (match findCounter (outOctetsPat iface) blob.data with
   | none => 0
   | some n => (n : ℚ) * (1 / 1000000000))

/-- The `StarlinkRouter` object (fields set by `__init__`). -/
structure StarlinkRouter where
  name : String
  star_sln : String
  star_traffic : StarTraffic
  venus_interface : String
  ares_traffic : String
  start_date : String
  end_date : String
deriving DecidableEq

/-- `StarlinkRouter.__init__`: stores the fields and calls `set_dates`;
a `set_dates` failure (empty `billingCycles`) propagates out of the
constructor, so no object is produced (`none`). -/
def mkStarlinkRouter (name star_sln : String) (star_traffic : StarTraffic)
    (venus_interface ares_traffic : String) : Option StarlinkRouter :=
  (setDates star_traffic).map fun dates =>
    { name := name
      star_sln := star_sln
      star_traffic := star_traffic
      venus_interface := venus_interface
      ares_traffic := ares_traffic
      start_date := dates.1
      end_date := dates.2 }

/-- Days since 1970-01-01 of a proleptic-Gregorian date (the calendar
Python's `datetime` uses); Hinnant's civil-from-days inverse companion. -/
def daysFromCivil (y : Int) (m d : Nat) : Int :=
  let y2 : Int := if m ≤ 2 then y - 1 else y
  let era : Int := (if 0 ≤ y2 then y2 else y2 - 399).ediv 400
  let yoe : Nat := (y2 - era * 400).toNat
  let mp : Nat := (m + 9) % 12
  let doy : Nat := (153 * mp + 2) / 5 + d - 1
  let doe : Nat := yoe * 365 + yoe / 4 - yoe / 100 + doy
  era * 146097 + (doe : Int) - 719468

/-- Proleptic-Gregorian date of a day count since 1970-01-01 (Hinnant's
civil-from-days). -/
def civilFromDays (z : Int) : Int × Nat × Nat :=
  let z2 : Int := z + 719468
  let era : Int := (if 0 ≤ z2 then z2 else z2 - 146096).ediv 146097
  let doe : Nat := (z2 - era * 146097).toNat
  let yoe : Nat := (doe - doe / 1460 + doe / 36524 - doe / 146096) / 365
  let doy : Nat := doe - (365 * yoe + yoe / 4 - yoe / 100)
  let mp : Nat := (5 * doy + 2) / 153
  let d : Nat := doy - (153 * mp + 2) / 5 + 1
  let m : Nat := if mp < 10 then mp + 3 else mp - 9
  (((yoe : Int) + era * 400) + (if m ≤ 2 then 1 else 0), m, d)

/-- Zero-padded two-digit decimal rendering. -/
def pad2 (n : Nat) : String :=
  if n < 10 then "0" ++ toString n else toString n

/-- Zero-padded four-digit decimal rendering of a (non-negative) year. -/
def pad4 (n : Int) : String :=
  let s := toString n.toNat
  if n.toNat < 10 then "000" ++ s
  else if n.toNat < 100 then "00" ++ s
  else if n.toNat < 1000 then "0" ++ s
  else s

/-- `strftime("%Y-%m-%d %H:%M:%S")` of a naive datetime given as seconds
since the 1970-01-01 00:00:00 epoch. -/
def fmtDateTime (t : Int) : String :=
  let day : Int := t.ediv 86400
  let secs : Nat := (t - day * 86400).toNat
  let c := civilFromDays day
  pad4 c.1 ++ "-" ++ pad2 c.2.1 ++ "-" ++ pad2 c.2.2 ++ " " ++
    pad2 (secs / 3600) ++ ":" ++ pad2 (secs % 3600 / 60) ++ ":" ++ pad2 (secs % 60)

/-- Value of an ASCII digit, `none` for a non-digit. -/
def digitVal (c : Char) : Option Nat :=
  if c.isDigit then some (c.toNat - 48) else none

/-- `datetime.strptime(s, "%Y-%m-%d")`: parse an exactly-ten-character
`YYYY-MM-DD` string into seconds-since-epoch at midnight; `none` models
the `ValueError` on malformed input. -/
def strptimeYMD (s : String) : Option Int :=
  match s.data with
  | [y1, y2, y3, y4, s1, m1, m2, s2, d1, d2] =>
    if s1 = '-' ∧ s2 = '-' then
      match digitVal y1, digitVal y2, digitVal y3, digitVal y4,
            digitVal m1, digitVal m2, digitVal d1, digitVal d2 with
      | some a, some b, some c, some d, some e, some f, some g, some h =>
        let year : Int := ((a * 10 + b) * 10 + c) * 10 + d
        let month := e * 10 + f
        let day := g * 10 + h
        if 1 ≤ month ∧ month ≤ 12 ∧ 1 ≤ day ∧ day ≤ 31 then
          some (daysFromCivil year month day * 86400)
        else none
      | _, _, _, _, _, _, _, _ => none
    else none
  | _ => none

/-- The window-alignment block of `get_ares_traffic` (lines 135-141): parse
both dates, subtract one day from the end, then apply
`naive.astimezone(pytz.utc)` to both.  Python interprets a naive datetime
as host-local wall time, so `astimezone(pytz.utc)` yields wall time
`t - hostOffset`, where `hostOffset` is the host's UTC offset in seconds
(e.g. `-25200` on a US-Pacific host in September).  `none` models a
`strptime` exception. -/
def alignWindow (hostOffset : Int) (startDate endDate : String) :
    Option (String × String) :=
  match strptimeYMD startDate, strptimeYMD endDate with
  | some s, some e =>
    let e2 := e - 86400
    some (fmtDateTime (s - hostOffset), fmtDateTime (e2 - hostOffset))
  | _, _ => none

/-- Modelled from the spec (§4.3), not from the source: the intended
alignment — subtract one day from the exclusive end date, then convert
both boundaries from UTC midnight into the flow-accounting source's fixed
offset (UTC−7, i.e. wall time `t + (-25200)` seconds), then format. -/
def alignWindowSpec (startDate endDate : String) : Option (String × String) :=
  match strptimeYMD startDate, strptimeYMD endDate with
  | some s, some e =>
    let e2 := e - 86400
    some (fmtDateTime (s + (-25200)), fmtDateTime (e2 + (-25200)))
  | _, _ => none

/-- The reference-window selection of `get_ares_traffic` (lines 131-141):
an arbitrary (first) router of the batch supplies the dates; with an empty
batch both dates remain `None`.  Outer `none` models a propagated
`strptime` exception; `some none` is the empty-batch case. -/
def getAresWindow (hostOffset : Int) (batch : List StarlinkRouter) :
    Option (Option (String × String)) :=
  match batch.head? with
  | none => some none
  | some r => (alignWindow hostOffset r.start_date r.end_date).map some

/-- Python's string interpolation of an optional value: `None` when absent. -/
def pyInterp (v : Option String) : String :=
  match v with
  | none => "None"
  | some s => s

/-- The unconditional flow pull of `get_ares_traffic` (lines 143-144): the
query string handed to `ares_api.web_adb`.  It is built and issued whether
or not a reference window exists; `none` models an exception raised
before the call. -/
def getAresPull (hostOffset : Int) (batch : List StarlinkRouter) :
    Option String :=
  (getAresWindow hostOffset batch).map fun w =>
    "anonymized Ares pull using " ++ pyInterp (w.map Prod.fst) ++ " and " ++
      pyInterp (w.map Prod.snd) ++ " to get appropriate data"

/-- Python `str.upper()` restricted to the ASCII range (the router names
in scope are ASCII). -/
def pyUpper (s : String) : String :=
  String.mk (s.data.map Char.toUpper)

/-- `n`-th character of a list, `none` past the end (total model of
Python's `line[n]`, whose out-of-range case raises `IndexError`). -/
def nthChar : List Char → Nat → Option Char
  | [], _ => none
  | c :: _, 0 => some c
  | _ :: cs, n + 1 => nthChar cs n

/-- `star_routers[line_router].ares_traffic += line` over an association
list keyed by router name (lines are appended with no separator, exactly
as `+=` concatenates). -/
def appendAres (routers : List (String × String)) (name line : String) :
    List (String × String) :=
  routers.map fun p => if p.1 = name then (p.1, p.2 ++ line) else p

/-- One iteration of the per-line scan of `get_ares_traffic`
(lines 146-150): read `line[8]` (`none` = `IndexError` on a line shorter
than 9 characters); on `'-'`, uppercase the 8-character prefix and append
the line to that router's blob when the name is a key of the batch. -/
def scanLine (routers : List (String × String)) (line : String) :
    Option (List (String × String)) :=
  match nthChar line.data 8 with
  | none => none
  | some c =>
    if c = '-' then
      let lineRouter := pyUpper (String.mk (line.data.take 8))
      if routers.any fun p => p.1 = lineRouter then
        some (appendAres routers lineRouter line)
      else some routers
    else some routers

/-- The whole line scan of `get_ares_traffic` over `splitlines()` output:
left-to-right, an `IndexError` on any line aborts the scan. -/
def scanAres (routers : List (String × String)) :
    List String → Option (List (String × String))
  | [] => some routers
  | l :: ls =>
    match scanLine routers l with
    | none => none
    | some rs => scanAres rs ls

/-- The leeway-adjusted overage of `compare_traffic`
(`star_bridgetroll.py` lines 167-177), exactly as the three-way branch
computes it. -/
def overLeeway (star_total ares_total leeway : ℚ) : ℚ :=
  let overage := star_total - ares_total
  if overage > 0 then
    let ol := star_total - ares_total - leeway
    if ol < 0 then 0 else ol
  else if overage < 0 then
    let ol := star_total - ares_total + leeway
    if ol > 0 then 0 else ol
  else 0

/-- One row of the `results` dict written by `compare_traffic`. -/
structure CompareResult where
  star_total : ℚ
  leeway : ℚ
  ares_total : ℚ
  overage : ℚ
  over_leeway : ℚ
deriving DecidableEq

/-- The per-router body of `compare_traffic`: both totals, the signed
overage, and the leeway-adjusted overage.  `none` models the exception
`calc_star_total` raises on an empty cycle list. -/
def compareEntry (r : StarlinkRouter) : Option CompareResult :=
  (calcStarTotal r.star_traffic).map fun st =>
    let ares_total := calcAresTotal r.venus_interface r.ares_traffic
    { star_total := st.1
      leeway := st.2
      ares_total := ares_total
      overage := st.1 - ares_total
      over_leeway := overLeeway st.1 ares_total st.2 }

/-- `compare_traffic` of `star_bridgetroll.py`: every router of the batch
is processed in order and written to `results`; an exception on any router
aborts the whole comparison (`none`). -/
def compareTraffic :
    List (String × StarlinkRouter) → Option (List (String × CompareResult))
  | [] => some []
  | (n, r) :: rest =>
    match compareEntry r with
    | none => none
    | some e => (compareTraffic rest).map fun t => (n, e) :: t

/-- The `percentage` field of `lte_bridgetroll.compare_traffic`: either the
string sentinel `'infinity'` or a number. -/
inductive Percentage where
  | infinity : Percentage
  | value : ℚ → Percentage
deriving DecidableEq

/-- One row of the `results` dict of `lte_bridgetroll.compare_traffic`. -/
structure LteResult where
  jove_usage : ℚ
  nero_usage : ℚ
  overage : ℚ
  percentage : Percentage
deriving DecidableEq

/-- Python division, `none` on a zero divisor (`ZeroDivisionError`). -/
def pyDiv (a b : ℚ) : Option ℚ :=
  if b = 0 then none else some (a / b)

/-- The per-router body of `lte_bridgetroll.compare_traffic`
(lines 176-187): the overage and the ratio metric, which is the sentinel
`'infinity'` when `nero_usage == 0` and `(overage / nero_usage) * 100`
otherwise; `none` would model an uncaught `ZeroDivisionError`. -/
def lteCompareEntry (jove_usage nero_usage : ℚ) : Option LteResult :=
  let overage := jove_usage - nero_usage
  if nero_usage = 0 then
    some { jove_usage := jove_usage, nero_usage := nero_usage,
           overage := overage, percentage := Percentage.infinity }
  else
    (pyDiv overage nero_usage).map fun q =>
      { jove_usage := jove_usage, nero_usage := nero_usage,
        overage := overage, percentage := Percentage.value (q * 100) }

/-- Sum of the `totalGB` values of a list of bins. -/
def binSum (bins : List DataUsageBin) : ℚ :=
  (bins.map DataUsageBin.totalGB).sum

/-- Arithmetic sum of every bin's `totalGB` across every day of a cycle. -/
def cycleSum (c : BillingCycle) : ℚ :=
  (c.dailyDataUsages.map fun d => binSum d.dataUsageBins).sum

/-- Number of bins across every day of a cycle. -/
def cycleBinCount (c : BillingCycle) : Nat :=
  (c.dailyDataUsages.map fun d => d.dataUsageBins.length).sum

end BridgeTroll

namespace BridgeTroll

/-! ### Helper lemmas -/

theorem strLtAux_irrefl (l : List Char) : strLtAux l l = false := by
  induction l with
  | nil => rfl
  | cons a as ih => simp [strLtAux, ih]

theorem strLtAux_trans {a b c : List Char} (hab : strLtAux a b = true)
    (hbc : strLtAux b c = true) : strLtAux a c = true := by
  induction a generalizing b c with
  | nil =>
    cases b with
    | nil => simp [strLtAux] at hab
    | cons y ys =>
      cases c with
      | nil => simp [strLtAux] at hbc
      | cons z zs => simp [strLtAux]
  | cons x xs ih =>
    cases b with
    | nil => simp [strLtAux] at hab
    | cons y ys =>
      cases c with
      | nil => simp [strLtAux] at hbc
      | cons z zs =>
        simp only [strLtAux] at hab hbc ⊢
        rcases Nat.lt_trichotomy x.toNat y.toNat with hxy | hxy | hxy <;>
          rcases Nat.lt_trichotomy y.toNat z.toNat with hyz | hyz | hyz
        · simp [show x.toNat < z.toNat from by omega]
        · simp [show x.toNat < z.toNat from by omega]
        · simp [show ¬ y.toNat < z.toNat from by omega,
            show z.toNat < y.toNat from by omega] at hbc
        · simp [show x.toNat < z.toNat from by omega]
        · simp [show ¬ x.toNat < y.toNat from by omega,
            show ¬ y.toNat < x.toNat from by omega] at hab
          simp [show ¬ y.toNat < z.toNat from by omega,
            show ¬ z.toNat < y.toNat from by omega] at hbc
          simp [show ¬ x.toNat < z.toNat from by omega,
            show ¬ z.toNat < x.toNat from by omega]
          exact ih hab hbc
        · simp [show ¬ y.toNat < z.toNat from by omega,
            show z.toNat < y.toNat from by omega] at hbc
        · simp [show ¬ x.toNat < y.toNat from by omega,
            show y.toNat < x.toNat from by omega] at hab
        · simp [show ¬ x.toNat < y.toNat from by omega,
            show y.toNat < x.toNat from by omega] at hab
        · simp [show ¬ x.toNat < y.toNat from by omega,
            show y.toNat < x.toNat from by omega] at hab

theorem strLtAux_false_cases {a b : List Char} (h : strLtAux a b = false) :
    strLtAux b a = true ∨ a = b := by
  induction a generalizing b with
  | nil =>
    cases b with
    | nil => right; rfl
    | cons y ys => simp [strLtAux] at h
  | cons x xs ih =>
    cases b with
    | nil => left; simp [strLtAux]
    | cons y ys =>
      simp only [strLtAux] at h ⊢
      rcases Nat.lt_trichotomy x.toNat y.toNat with hxy | hxy | hxy
      · simp [hxy] at h
      · have hc : x = y := Char.ext (UInt32.toNat.inj hxy)
        simp [show ¬ x.toNat < y.toNat from by omega,
          show ¬ y.toNat < x.toNat from by omega] at h
        rcases ih h with h2 | h2
        · left
          simp [show ¬ y.toNat < x.toNat from by omega,
            show ¬ x.toNat < y.toNat from by omega, h2]
        · right; simp [hc, h2]
      · left
        simp [show y.toNat < x.toNat from hxy]

theorem pyStrLt_irrefl (s : String) : pyStrLt s s = false :=
  strLtAux_irrefl s.data

theorem pyStrLt_trans {a b c : String} (hab : pyStrLt a b = true)
    (hbc : pyStrLt b c = true) : pyStrLt a c = true :=
  strLtAux_trans hab hbc

theorem pyStrLt_false_cases {a b : String} (h : pyStrLt a b = false) :
    pyStrLt b a = true ∨ a = b := by
  rcases strLtAux_false_cases h with h2 | h2
  · exact Or.inl h2
  · right
    exact congrArg String.mk h2

theorem minByStart_foldl (cs : List BillingCycle) (b : BillingCycle) :
    ∃ r, cs.foldl
        (fun acc c =>
          match acc with
          | none => some c
          | some b2 => if pyStrLt c.startDate b2.startDate then some c else some b2)
        (some b) = some r ∧
      r ∈ b :: cs ∧ ∀ x ∈ b :: cs, pyStrLt x.startDate r.startDate = false := by
  induction cs generalizing b with
  | nil =>
    refine ⟨b, rfl, by simp, ?_⟩
    intro x hx
    rw [List.mem_singleton.mp hx]
    exact pyStrLt_irrefl _
  | cons c cs ih =>
    by_cases hc : pyStrLt c.startDate b.startDate = true
    · obtain ⟨r, hr, hmem, hmin⟩ := ih c
      refine ⟨r, ?_, ?_, ?_⟩
      · simpa [List.foldl_cons, hc] using hr
      · rcases List.mem_cons.mp hmem with h2 | h2
        · simp [h2]
        · simp [h2]
      · intro x hx
        rcases List.mem_cons.mp hx with rfl | hx
        · by_contra hbr
          have hbr2 : pyStrLt x.startDate r.startDate = true := by
            revert hbr
            cases pyStrLt x.startDate r.startDate <;> simp
          have : pyStrLt c.startDate r.startDate = true := pyStrLt_trans hc hbr2
          have hcf := hmin c (by simp)
          rw [hcf] at this
          cases this
        · exact hmin x hx
    · have hcf : pyStrLt c.startDate b.startDate = false := by
        revert hc
        cases pyStrLt c.startDate b.startDate <;> simp
      obtain ⟨r, hr, hmem, hmin⟩ := ih b
      refine ⟨r, ?_, ?_, ?_⟩
      · simpa [List.foldl_cons, hcf] using hr
      · rcases List.mem_cons.mp hmem with h2 | h2
        · simp [h2]
        · simp [h2]
      · intro x hx
        rcases List.mem_cons.mp hx with rfl | hx
        · exact hmin x (by simp)
        · rcases List.mem_cons.mp hx with rfl | hx
          · by_contra hxr
            have hxr2 : pyStrLt x.startDate r.startDate = true := by
              revert hxr
              cases pyStrLt x.startDate r.startDate <;> simp
            have hbrf := hmin b (by simp)
            rcases pyStrLt_false_cases hcf with h2 | h2
            · have : pyStrLt b.startDate r.startDate = true := pyStrLt_trans h2 hxr2
              rw [hbrf] at this
              cases this
            · have : pyStrLt b.startDate r.startDate = true := by
                rw [← h2]
                exact hxr2
              rw [hbrf] at this
              cases this
          · exact hmin x (by simp [hx])

theorem minByStart_min {cs : List BillingCycle} {c : BillingCycle}
    (hc : minByStart cs = some c) :
    c ∈ cs ∧ ∀ x ∈ cs, pyStrLt x.startDate c.startDate = false := by
  cases cs with
  | nil => cases hc
  | cons b cs2 =>
    obtain ⟨r, hr, hmem, hmin⟩ := minByStart_foldl cs2 b
    have : minByStart (b :: cs2) = some r := by
      simpa [minByStart, List.foldl_cons] using hr
    rw [this] at hc
    cases hc
    exact ⟨hmem, hmin⟩

theorem pairwise_startDate_inj {l : List BillingCycle}
    (hp : l.Pairwise fun a b => a.startDate ≠ b.startDate) :
    ∀ a ∈ l, ∀ b ∈ l, a.startDate = b.startDate → a = b := by
  induction l with
  | nil => intro a ha; cases ha
  | cons x xs ih =>
    rcases List.pairwise_cons.mp hp with ⟨hx, hxs⟩
    intro a ha b hb heq
    rcases List.mem_cons.mp ha with rfl | ha2
    · rcases List.mem_cons.mp hb with rfl | hb2
      · rfl
      · exact absurd heq (hx b hb2)
    · rcases List.mem_cons.mp hb with rfl | hb2
      · exact absurd heq.symm (hx a ha2)
      · exact ih hxs a ha2 b hb2 heq

theorem nthChar_eq_none {cs : List Char} {n : Nat} (h : cs.length ≤ n) :
    nthChar cs n = none := by
  induction cs generalizing n with
  | nil => rfl
  | cons c cs2 ih =>
    cases n with
    | zero => simp at h
    | succ m => exact ih (by simpa using h)

theorem binsFoldl (bins : List DataUsageBin) (p : ℚ × ℚ) :
    bins.foldl (fun acc2 b => (acc2.1 + b.totalGB, acc2.2 + 1 / 100)) p =
      (p.1 + binSum bins, p.2 + (bins.length : ℚ) * (1 / 100)) := by
  induction bins generalizing p with
  | nil => simp [binSum]
  | cons b bs ih =>
    rw [List.foldl_cons, ih]
    simp [binSum]
    constructor
    · ring
    · ring

theorem daysFoldl (days : List DailyDataUsage) (p : ℚ × ℚ) :
    days.foldl
        (fun acc day =>
          day.dataUsageBins.foldl
            (fun acc2 b => (acc2.1 + b.totalGB, acc2.2 + 1 / 100)) acc)
        p =
      (p.1 + (days.map fun d => binSum d.dataUsageBins).sum,
       p.2 + (((days.map fun d => d.dataUsageBins.length).sum : ℕ) : ℚ) * (1 / 100)) := by
  induction days generalizing p with
  | nil => simp
  | cons d ds ih =>
    rw [List.foldl_cons, binsFoldl, ih]
    simp
    constructor
    · ring
    · ring

theorem isPrefixOf_append (p r : List Char) : p.isPrefixOf (p ++ r) = true := by
  induction p with
  | nil => simp [List.isPrefixOf]
  | cons a as ih => simp [List.isPrefixOf, ih]

theorem takeWhile_digits (ds rest : List Char) (hdig : ∀ c ∈ ds, c.isDigit = true)
    (hrest : headNotDigit rest = true) :
    (ds ++ rest).takeWhile Char.isDigit = ds := by
  induction ds with
  | nil =>
    cases rest with
    | nil => rfl
    | cons r rs =>
      have hr : r.isDigit = false := by
        simpa [headNotDigit] using hrest
      simp [List.takeWhile_cons, hr]
  | cons d ds2 ih =>
    simp only [List.cons_append, List.takeWhile_cons, hdig d (by simp), if_true]
    rw [ih fun c hc => hdig c (by simp [hc])]

theorem tryAt_exact (pat ds rest : List Char) (hne : ds ≠ [])
    (hdig : ∀ c ∈ ds, c.isDigit = true)
    (hrest : headNotDigit rest = true) :
    tryAt pat (pat ++ (ds ++ rest)) = some (digitsToNat ds) := by
  cases ds with
  | nil => exact absurd rfl hne
  | cons d ds2 =>
    have htw := takeWhile_digits (d :: ds2) rest hdig hrest
    simp only [tryAt, isPrefixOf_append, List.drop_left, htw]
    simp

theorem findCounter_of_first {pat : List Char} {n : Nat} :
    ∀ (k : Nat) (s : List Char), (∀ i < k, tryAt pat (s.drop i) = none) →
      tryAt pat (s.drop k) = some n → findCounter pat s = some n := by
  intro k
  induction k with
  | zero =>
    intro s _ h0
    cases s with
    | nil => simpa [findCounter] using h0
    | cons c s2 =>
      simp only [List.drop_zero] at h0
      simp [findCounter, h0]
  | succ m ih =>
    intro s hlt hk
    cases s with
    | nil =>
      have h0 := hlt 0 (Nat.succ_pos m)
      simp only [List.drop_nil] at hk h0
      rw [h0] at hk
      cases hk
    | cons c s2 =>
      have h0 := hlt 0 (Nat.succ_pos m)
      simp only [List.drop_zero] at h0
      have : findCounter pat (c :: s2) = findCounter pat s2 := by
        simp [findCounter, h0]
      rw [this]
      exact ih s2 (fun i hi => hlt (i + 1) (by omega)) hk

/-! ### Claim theorems -/

/-- Claim C1 (corrected): the claim asserts the aligned flow window for the
billing window 2024-09-01 .. 2024-10-01 is
("2024-08-31 17:00:00", "2024-09-30 17:00:00").  This theorem proves the
code instead produces ("2024-09-01 07:00:00", "2024-09-30 07:00:00") on a
UTC−7 host: `astimezone(pytz.utc)` on a naive datetime converts host-local
wall time to UTC (wall time +7h on a UTC−7 host), not UTC to UTC−7. -/
theorem claim_C1_counterexample :
    alignWindow (-25200) "2024-09-01" "2024-10-01" =
      some ("2024-09-01 07:00:00", "2024-09-30 07:00:00") ∧
    ("2024-09-01 07:00:00", "2024-09-30 07:00:00") ≠
      (("2024-08-31 17:00:00", "2024-09-30 17:00:00") : String × String) := by
  constructor
  · rfl
  · decide

/-- Claim C1 (amended): the code applies the one-day inclusivity correction
to the end date and then converts both naive boundaries from host-local
wall time to UTC.  On a UTC−7 host this yields the 07:00:00 pair; on a UTC
host the conversion is the identity and the boundaries stay at midnight.
Even the spec's own stated corrections (one day back, then UTC midnight to
UTC−7) yield ("2024-08-31 17:00:00", "2024-09-29 17:00:00"): the end
boundary claimed by the spec, "2024-09-30 17:00:00", corresponds to
omitting the one-day correction and is produced under neither reading. -/
theorem claim_C1 :
    alignWindow (-25200) "2024-09-01" "2024-10-01" =
      some ("2024-09-01 07:00:00", "2024-09-30 07:00:00") ∧
    alignWindow 0 "2024-09-01" "2024-10-01" =
      some ("2024-09-01 00:00:00", "2024-09-30 00:00:00") ∧
    alignWindowSpec "2024-09-01" "2024-10-01" =
      some ("2024-08-31 17:00:00", "2024-09-29 17:00:00") := by
  refine ⟨rfl, rfl, rfl⟩

/-- Claim C3 (confirmed): for tolerance `lw ≥ 0` and
`overage = p − s`, the engine's `over_leeway` is 0 inside the deadband
`|overage| ≤ lw`, is `overage − lw > 0` when `overage > lw`, and is
`overage + lw < 0` when `overage < −lw`. -/
theorem claim_C3 (p s lw : ℚ) (hlw : 0 ≤ lw) :
    (|p - s| ≤ lw → overLeeway p s lw = 0) ∧
    (p - s > lw → overLeeway p s lw = p - s - lw ∧ 0 < p - s - lw) ∧
    (p - s < -lw → overLeeway p s lw = p - s + lw ∧ p - s + lw < 0) := by
  refine ⟨?_, ?_, ?_⟩
  · intro h
    rcases abs_le.mp h with ⟨h1, h2⟩
    simp only [overLeeway]
    split_ifs with ha hb hc hd <;> linarith
  · intro h
    simp only [overLeeway]
    split_ifs with ha hb <;> constructor <;> linarith
  · intro h
    simp only [overLeeway]
    split_ifs with ha hb hc <;> constructor <;> linarith

/-- Witness for C3 at the spec's scenario `p = 130`, `s = 118`,
`lw = 1.05`: the overage 12 exceeds the tolerance, and the adjusted
overage is `12 − 1.05 = 10.95 > 0`. -/
theorem claim_C3_witness :
    overLeeway 130 118 (105 / 100) = 130 - 118 - 105 / 100 ∧
    (0 : ℚ) < 130 - 118 - 105 / 100 :=
  (claim_C3 130 118 (105 / 100) (by norm_num)).2.1 (by norm_num)

/-- Claim C6 (confirmed): a billing payload with an empty `billingCycles`
list makes `set_dates` fail (`min` raises), and the failure propagates out
of the `StarlinkRouter` constructor — no window and no router object are
produced. -/
theorem claim_C6 (name sln iface ar : String) (t : StarTraffic)
    (h : t.billingCycles = []) :
    setDates t = none ∧ mkStarlinkRouter name sln t iface ar = none := by
  have hs : setDates t = none := by
    simp [setDates, minByStart, h]
  exact ⟨hs, by simp [mkStarlinkRouter, hs]⟩

/-- Witness for C6: the concrete zero-cycle payload. -/
theorem claim_C6_witness :
    setDates { billingCycles := [] } = none ∧
    mkStarlinkRouter "R1" "sln" { billingCycles := [] } "e0" "" = none :=
  claim_C6 "R1" "sln" "e0" "" { billingCycles := [] } rfl

/-- Claim C7 (counterexample): with an empty router batch the flow pull is
NOT skipped — `web_adb` is still invoked, with the literal text `None`
interpolated for both dates in the query string.  The claim asserts the
pull is "skipped entirely", which is false. -/
theorem claim_C7_counterexample :
    getAresPull (-25200) [] =
      some "anonymized Ares pull using None and None to get appropriate data" := by
  rfl

/-- Claim C7 (amended): with an empty batch no reference window is
computed (both dates remain `None`), but the downstream flow pull is still
issued, with `None` and `None` interpolated into the query, for every host
timezone offset. -/
theorem claim_C7 (hostOffset : Int) :
    getAresWindow hostOffset [] = some none ∧
    getAresPull hostOffset [] =
      some "anonymized Ares pull using None and None to get appropriate data" :=
  ⟨rfl, rfl⟩

/-- Claim C9 (confirmed): the LTE comparison's ratio metric is total — it
always yields a row, with the string sentinel `'infinity'` (not a numeric
infinity, not a `ZeroDivisionError`) when the NERO total is zero, and
`(overage / nero) * 100` otherwise. -/
theorem claim_C9 (jove nero : ℚ) :
    lteCompareEntry jove nero =
      some { jove_usage := jove, nero_usage := nero, overage := jove - nero,
             percentage :=
               if nero = 0 then Percentage.infinity
               else Percentage.value ((jove - nero) / nero * 100) } := by
  by_cases h : nero = 0 <;> simp [lteCompareEntry, pyDiv, h]

/-- Claim C10 (confirmed): the per-line router-prefix test `line[8] == '-'`
of `get_ares_traffic` raises `IndexError` on any line shorter than nine
characters, so a blob containing such a line (e.g. an empty line) aborts
the whole scan instead of skipping that line: in this total embedding the
error branch (`none`) is reached. -/
theorem claim_C10 (routers : List (String × String)) (lines : List String)
    (l : String) (hmem : l ∈ lines) (hshort : l.length < 9) :
    scanAres routers lines = none := by
  induction lines generalizing routers with
  | nil => cases hmem
  | cons h t ih =>
    rcases List.mem_cons.mp hmem with rfl | hmem2
    · have hn : nthChar l.data 8 = none := by
        apply nthChar_eq_none
        have : l.length = l.data.length := rfl
        omega
      simp [scanAres, scanLine, hn]
    · cases hsc : scanLine routers h with
      | none => simp [scanAres, hsc]
      | some rs =>
        simp only [scanAres, hsc]
        exact ih rs hmem2

/-- Witness for C10: a blob whose second line is empty aborts the scan. -/
theorem claim_C10_witness :
    scanAres [("ROUTER01", "")] ["ROUTER01-a,e0", "", "ROUTER01-b,e0"] = none :=
  claim_C10 [("ROUTER01", "")] ["ROUTER01-a,e0", "", "ROUTER01-b,e0"] ""
    (by decide) (by decide)

/-- Claim C4 (confirmed): when the earliest-starting cycle is `c`,
`calc_star_total` returns exactly the arithmetic sum of every bin's
`totalGB` across every day of `c`, paired with a leeway of
`1 + 0.01 × (number of bins summed)`, for every bin count. -/
theorem claim_C4 (t : StarTraffic) (c : BillingCycle)
    (h : minByStart t.billingCycles = some c) :
    calcStarTotal t = some (cycleSum c, 1 + (cycleBinCount c : ℚ) / 100) := by
  simp only [calcStarTotal, h, Option.map_some']
  rw [daysFoldl]
  simp only [cycleSum, cycleBinCount, Option.some.injEq, Prod.mk.injEq]
  constructor
  · ring
  · ring

/-- Witness for C4: a two-cycle payload listed latest-first; the earliest
cycle has two bins (5 GB and 3.5 GB) on one day and an empty second day,
giving total 8.5 and leeway 1.02. -/
theorem claim_C4_witness :
    calcStarTotal
        { billingCycles :=
            [{ startDate := "2024-10-01T00:00:00Z", endDate := "2024-11-01T00:00:00Z",
               dailyDataUsages := [{ dataUsageBins := [{ totalGB := 1 }] }] },
             { startDate := "2024-09-01T00:00:00Z", endDate := "2024-10-01T00:00:00Z",
               dailyDataUsages :=
                 [{ dataUsageBins := [{ totalGB := 5 }, { totalGB := 7 / 2 }] },
                  { dataUsageBins := [] }] }] } =
      some (17 / 2, 1 + (2 : ℚ) / 100) := by
  have h := claim_C4
    { billingCycles :=
        [{ startDate := "2024-10-01T00:00:00Z", endDate := "2024-11-01T00:00:00Z",
           dailyDataUsages := [{ dataUsageBins := [{ totalGB := 1 }] }] },
         { startDate := "2024-09-01T00:00:00Z", endDate := "2024-10-01T00:00:00Z",
           dailyDataUsages :=
             [{ dataUsageBins := [{ totalGB := 5 }, { totalGB := 7 / 2 }] },
              { dataUsageBins := [] }] }] }
    { startDate := "2024-09-01T00:00:00Z", endDate := "2024-10-01T00:00:00Z",
      dailyDataUsages :=
        [{ dataUsageBins := [{ totalGB := 5 }, { totalGB := 7 / 2 }] },
         { dataUsageBins := [] }] }
    rfl
  rw [h]
  norm_num [cycleSum, cycleBinCount, binSum]

/-- Claim C5 (confirmed): if the cycles of a payload have pairwise distinct
start timestamps (the spec's assumed uniqueness) and `c` is the cycle no
other cycle starts before, then `set_dates` extracts exactly the first ten
characters of `c`'s start and end timestamps — membership and minimality
do not depend on the order of the array. -/
theorem claim_C5 (t : StarTraffic) (c : BillingCycle)
    (hp : t.billingCycles.Pairwise fun a b => a.startDate ≠ b.startDate)
    (hmem : c ∈ t.billingCycles)
    (hmin : ∀ x ∈ t.billingCycles, pyStrLt x.startDate c.startDate = false) :
    setDates t = some (c.startDate.take 10, c.endDate.take 10) := by
  cases hms : minByStart t.billingCycles with
  | none =>
    exfalso
    cases hcs : t.billingCycles with
    | nil => rw [hcs] at hmem; cases hmem
    | cons b bs =>
      obtain ⟨r, hr, _, _⟩ := minByStart_foldl bs b
      have : minByStart (b :: bs) = some r := by
        simpa [minByStart, List.foldl_cons] using hr
      rw [hcs, this] at hms
      cases hms
  | some r =>
    obtain ⟨hrmem, hrmin⟩ := minByStart_min hms
    have h1 : pyStrLt r.startDate c.startDate = false := hmin r hrmem
    have h2 : pyStrLt c.startDate r.startDate = false := hrmin c hmem
    have heq : r = c := by
      rcases pyStrLt_false_cases h1 with h3 | h3
      · rw [h2] at h3
        cases h3
      · exact pairwise_startDate_inj hp r hrmem c hmem h3
    rw [heq] at hms
    simp [setDates, hms]

/-- Witness for C5: two cycles listed latest-first; the extracted window is
the date part of the earliest cycle's timestamps. -/
theorem claim_C5_witness :
    setDates
        { billingCycles :=
            [{ startDate := "2024-10-01T00:00:00Z", endDate := "2024-11-01T00:00:00Z",
               dailyDataUsages := [] },
             { startDate := "2024-09-01T00:00:00Z", endDate := "2024-10-01T00:00:00Z",
               dailyDataUsages := [] }] } =
      some ("2024-09-01T00:00:00Z".take 10, "2024-10-01T00:00:00Z".take 10) :=
  claim_C5
    { billingCycles :=
        [{ startDate := "2024-10-01T00:00:00Z", endDate := "2024-11-01T00:00:00Z",
           dailyDataUsages := [] },
         { startDate := "2024-09-01T00:00:00Z", endDate := "2024-10-01T00:00:00Z",
           dailyDataUsages := [] }] }
    { startDate := "2024-09-01T00:00:00Z", endDate := "2024-10-01T00:00:00Z",
      dailyDataUsages := [] }
    (by decide) (by decide) (by decide)

/-- Evaluation of `compare_traffic` on a one-router batch whose flow blob
is empty: no counter line matches, yet the router is reported, with
`ares_total = 0` (shared by the C2 counterexample and witness). -/
theorem compareTraffic_missing_flow_eval :
    compareTraffic
        [("R1",
          { name := "R1", star_sln := "s",
            star_traffic :=
              { billingCycles :=
                  [{ startDate := "2024-09-01T00:00:00Z",
                     endDate := "2024-10-01T00:00:00Z",
                     dailyDataUsages := [{ dataUsageBins := [{ totalGB := 5 }] }] }] },
            venus_interface := "e0", ares_traffic := "",
            start_date := "2024-09-01", end_date := "2024-10-01" })] =
      some [("R1",
        { star_total := 5, leeway := 101 / 100, ares_total := 0,
          overage := 5, over_leeway := 399 / 100 })] := by
  have h1 : findCounter (inOctetsPat "e0") ("" : String).data = none := by decide
  have h2 : findCounter (outOctetsPat "e0") ("" : String).data = none := by decide
  have hca : calcAresTotal "e0" "" = 0 := by
    simp [calcAresTotal, h1, h2]
  have hmin : minByStart
      [{ startDate := "2024-09-01T00:00:00Z", endDate := "2024-10-01T00:00:00Z",
         dailyDataUsages := [{ dataUsageBins := [{ totalGB := 5 }] }] }] =
      some { startDate := "2024-09-01T00:00:00Z", endDate := "2024-10-01T00:00:00Z",
             dailyDataUsages := [{ dataUsageBins := [{ totalGB := 5 }] }] } := by
    decide
  simp only [compareTraffic, compareEntry, calcStarTotal, hmin, hca,
    Option.map_some', List.foldl_cons, List.foldl_nil]
  norm_num [overLeeway]

/-- Claim C2 (counterexample): a router whose flow-accounting total could
not be computed (its interface matches no counter line in its — empty —
blob) does appear in the reconciliation output, reported with
`ares_total = 0`, contradicting "never appears ... dropped, not reported
with a zero total". -/
theorem claim_C2_counterexample :
    compareTraffic
        [("R1",
          { name := "R1", star_sln := "s",
            star_traffic :=
              { billingCycles :=
                  [{ startDate := "2024-09-01T00:00:00Z",
                     endDate := "2024-10-01T00:00:00Z",
                     dailyDataUsages := [{ dataUsageBins := [{ totalGB := 5 }] }] }] },
            venus_interface := "e0", ares_traffic := "",
            start_date := "2024-09-01", end_date := "2024-10-01" })] =
      some [("R1",
        { star_total := 5, leeway := 101 / 100, ares_total := 0,
          overage := 5, over_leeway := 399 / 100 })] ∧
    calcAresTotal "e0" "" = 0 := by
  constructor
  · exact compareTraffic_missing_flow_eval
  · have h1 : findCounter (inOctetsPat "e0") ("" : String).data = none := by decide
    have h2 : findCounter (outOctetsPat "e0") ("" : String).data = none := by decide
    simp [calcAresTotal, h1, h2]

/-- Claim C2 (amended): the star-side `compare_traffic` never drops a
router: whenever it returns a result, the output rows are exactly the
input batch's routers, in order — a router with no flow data is reported
with `ares_total = 0` rather than excluded. -/
theorem claim_C2 (batch : List (String × StarlinkRouter))
    (res : List (String × CompareResult)) (h : compareTraffic batch = some res) :
    res.map Prod.fst = batch.map Prod.fst := by
  induction batch generalizing res with
  | nil =>
    simp only [compareTraffic, Option.some.injEq] at h
    subst h
    rfl
  | cons p rest ih =>
    obtain ⟨n, r⟩ := p
    simp only [compareTraffic] at h
    cases hce : compareEntry r with
    | none =>
      rw [hce] at h
      cases h
    | some e =>
      rw [hce] at h
      cases ht : compareTraffic rest with
      | none =>
        rw [ht] at h
        simp only [Option.map_none'] at h
        cases h
      | some tl =>
        rw [ht] at h
        simp only [Option.map_some', Option.some.injEq] at h
        rw [← h]
        simp [ih tl ht]

/-- Witness for C2 (amended): on the one-router batch with an empty flow
blob, the output keys equal the batch keys. -/
theorem claim_C2_witness :
    ([("R1",
      ({ star_total := 5, leeway := 101 / 100, ares_total := 0,
         overage := 5, over_leeway := 399 / 100 } : CompareResult))]).map Prod.fst =
      ([("R1",
        ({ name := "R1", star_sln := "s",
           star_traffic :=
             { billingCycles :=
                 [{ startDate := "2024-09-01T00:00:00Z",
                    endDate := "2024-10-01T00:00:00Z",
                    dailyDataUsages := [{ dataUsageBins := [{ totalGB := 5 }] }] }] },
           venus_interface := "e0", ares_traffic := "",
           start_date := "2024-09-01", end_date := "2024-10-01" } : StarlinkRouter))]).map
        Prod.fst :=
  claim_C2 _ _ compareTraffic_missing_flow_eval

/-- Claim C8 (confirmed): when the blob decomposes as
`A · inPat · D1 · B · outPat · D2 · C` — the inbound-counter pattern for
the router's interface followed by the maximal digit run `D1`, likewise
`D2` for the outbound counter, with `A` containing no earlier
inbound match and everything before `outPat` containing no earlier
outbound match (i.e. exactly those counter lines match) —
`calc_ares_total` returns the two counter values summed and converted to
decimal GB by multiplication with `1/10^9`. -/
theorem claim_C8 (iface : String) (A D1 B D2 C : List Char)
    (hD1ne : D1 ≠ []) (hD1dig : ∀ c ∈ D1, c.isDigit = true)
    (hD2ne : D2 ≠ []) (hD2dig : ∀ c ∈ D2, c.isDigit = true)
    (hB : headNotDigit (B ++ (outOctetsPat iface ++ (D2 ++ C))) = true)
    (hC : headNotDigit C = true)
    (hInFirst : ∀ i < A.length,
      tryAt (inOctetsPat iface)
        ((A ++ (inOctetsPat iface ++ (D1 ++ (B ++ (outOctetsPat iface ++ (D2 ++ C)))))).drop
          i) = none)
    (hOutFirst : ∀ i <
        A.length + (inOctetsPat iface).length + D1.length + B.length,
      tryAt (outOctetsPat iface)
        ((A ++ (inOctetsPat iface ++ (D1 ++ (B ++ (outOctetsPat iface ++ (D2 ++ C)))))).drop
          i) = none) :
    calcAresTotal iface
        (String.mk
          (A ++ (inOctetsPat iface ++ (D1 ++ (B ++ (outOctetsPat iface ++ (D2 ++ C))))))) =
      ((digitsToNat D1 : ℚ) + (digitsToNat D2 : ℚ)) * (1 / 1000000000) := by
  have h1 : findCounter (inOctetsPat iface)
      (A ++ (inOctetsPat iface ++ (D1 ++ (B ++ (outOctetsPat iface ++ (D2 ++ C)))))) =
      some (digitsToNat D1) := by
    refine findCounter_of_first A.length _ hInFirst ?_
    rw [List.drop_left]
    exact tryAt_exact (inOctetsPat iface) D1
      (B ++ (outOctetsPat iface ++ (D2 ++ C))) hD1ne hD1dig hB
  have hassoc : A ++ (inOctetsPat iface ++ (D1 ++ (B ++ (outOctetsPat iface ++ (D2 ++ C))))) =
      (A ++ (inOctetsPat iface ++ (D1 ++ B))) ++ (outOctetsPat iface ++ (D2 ++ C)) := by
    simp [List.append_assoc]
  have h2 : findCounter (outOctetsPat iface)
      (A ++ (inOctetsPat iface ++ (D1 ++ (B ++ (outOctetsPat iface ++ (D2 ++ C)))))) =
      some (digitsToNat D2) := by
    refine findCounter_of_first
      (A.length + (inOctetsPat iface).length + D1.length + B.length) _ hOutFirst ?_
    have hlen : A.length + (inOctetsPat iface).length + D1.length + B.length =
        (A ++ (inOctetsPat iface ++ (D1 ++ B))).length := by
      simp [List.length_append]
      omega
    rw [hassoc, hlen, List.drop_left]
    exact tryAt_exact (outOctetsPat iface) D2 C hD2ne hD2dig hC
  simp only [calcAresTotal]
  rw [h1, h2]
  ring

/-- Witness for C8: a blob with one inbound-counter line (value 5) and one
outbound-counter line (value 7) for interface `e0`; the computed total is
`(5 + 7) × 10⁻⁹` GB. -/
theorem claim_C8_witness :
    calcAresTotal "e0"
        (String.mk
          ("R1-x".data ++ (inOctetsPat "e0" ++ (['5'] ++ ("\nR".data ++
            (outOctetsPat "e0" ++ (['7'] ++ ([] : List Char)))))))) =
      ((digitsToNat ['5'] : ℚ) + (digitsToNat ['7'] : ℚ)) * (1 / 1000000000) :=
  claim_C8 "e0" "R1-x".data ['5'] "\nR".data ['7'] []
    (by decide) (by decide) (by decide) (by decide) (by decide) (by decide)
    (by decide) (by decide)

end BridgeTroll
